import Mathlib

/-!
Shallow embedding of the ReviewX service (`main.go`): a review store backed
by a single SQLite table with an `INTEGER PRIMARY KEY AUTOINCREMENT` id
column, an in-process id counter seeded from the table maximum on startup,
and three HTTP handlers (create, list, delete).

Modelling notes, each traced to the source:
  * `Review` mirrors the Go struct (id, name, review, rating).
  * `DB` models the SQLite file: the `reviews` table rows in storage order
    plus the engine's AUTOINCREMENT sequence for the table (the
    `sqlite_sequence` entry, which persists across deletes and restarts).
    `saveReview` inserts only `(name, review, rating)` — exactly the column
    list of the INSERT in `saveReview` — so the stored row id comes from the
    engine: one more than the larger of the sequence and the current
    maximum rowid, which is SQLite's documented AUTOINCREMENT rule.
  * Fallible store calls carry an explicit oracle (`insertFails`,
    `backendErr`) standing for driver/storage failures; `none`/`false`
    is the normal path.
  * `loadReviews` reproduces the Go loop `var reviews []Review; append...`:
    the result is a nil slice (`Option.none`) when the table has no rows,
    and Go's `encoding/json` marshals a nil slice as JSON `null`.
  * Handlers return their new state together with a response; HTTP statuses
    are mapped by `createStatus` / `deleteStatus` (200/400/500 as in the
    handlers' `http.Error` / `respondWithJSON` calls).
  * The global mutex serializes every handler, so a process run is a
    sequence of handler steps (`run` over `Op`); restart re-opens the same
    `DB` and re-runs `loadIDCounter`.
-/

/-- A review record, as in the Go `Review` struct. -/
structure Review where
  id : Int
  name : String
  review : String
  rating : Int
deriving DecidableEq, Repr

/-- The persistent store: the `reviews` table rows (in rowid order) and the
AUTOINCREMENT sequence value for the table (0 when no row was ever
inserted). The sequence survives deletes and process restarts. -/
structure DB where
  rows : List Review
  seq : Int
deriving DecidableEq, Repr

/-- A freshly initialized database file: empty table, zero sequence. -/
def emptyDB : DB := { rows := [], seq := 0 }

/-- Highest id among the given rows, 0 when there are none (the numeric
value backing `SELECT MAX(id)`). -/
def maxRowId (rows : List Review) : Int :=
  rows.foldl (fun m ρ => max m ρ.id) 0

/-- `SELECT MAX(id) FROM reviews`: NULL (`none`) on an empty table. -/
def maxID (rows : List Review) : Option Int :=
  match rows with
  | [] => none
  | _ => some (maxRowId rows)

/-- `loadIDCounter`: the counter starts at 0 and is overwritten with the
table maximum when `MAX(id)` is non-NULL. -/
def loadIDCounter (db : DB) : Int :=
  match maxID db.rows with
  | none => 0
  | some m => m

/-- `saveReview`: `INSERT INTO reviews (name, review, rating) VALUES (?, ?, ?)`.
The id column is not in the column list, so the engine assigns the new
rowid by the AUTOINCREMENT rule — one more than the larger of the table's
current maximum rowid and the stored sequence — and advances the sequence. -/
def saveReview (db : DB) (r : Review) : DB :=
  let newId := max db.seq (maxRowId db.rows) + 1
  { rows := db.rows ++ [{ r with id := newId }], seq := newId }

/-- Number of rows matching the id: `RowsAffected` of
`DELETE FROM reviews WHERE id = ?`. -/
def rowsAffected (rows : List Review) (id : Int) : Nat :=
  rows.countP (fun ρ => ρ.id == id)

/-- The table after deleting every row with the given id. -/
def removeId (rows : List Review) (id : Int) : List Review :=
  rows.filter (fun ρ => ρ.id != id)

/-- Store-level errors surfaced by `deleteReview`: the dedicated
"no review found with id %d" error versus a generic backend error. -/
inductive DBErr where
  | notFound (id : Int)
  | backend (msg : String)
deriving DecidableEq, Repr

/-- The error string carried by each `DBErr`, as `fmt.Errorf` renders it. -/
def DBErr.message : DBErr → String
  | .notFound id => "no review found with id " ++ toString id
  | .backend m => m

/-- `deleteReview`: run the DELETE (which may fail in the backend), then
report not-found when zero rows were affected. -/
def deleteReview (db : DB) (id : Int) (backendErr : Option String) :
    Except DBErr DB :=
  match backendErr with
  | some m => Except.error (DBErr.backend m)
  | none =>
    if rowsAffected db.rows id = 0 then
      Except.error (DBErr.notFound id)
    else
      Except.ok { db with rows := removeId db.rows id }

/-- `loadReviews`: `var reviews []Review` starts as a nil slice and one
`append` per row makes it non-nil; `none` is the nil slice. -/
def goAppend (s : Option (List Review)) (r : Review) : Option (List Review) :=
  match s with
  | none => some [r]
  | some l => some (l ++ [r])

/-- `loadReviews` scans every row of the table into the slice. -/
def loadReviews (db : DB) : Option (List Review) :=
  db.rows.foldl goAppend none

/-- The JSON value `json.NewEncoder(w).Encode(reviews)` writes: `null` for a
nil slice, an array otherwise. -/
inductive ListBody where
  | null
  | arr (xs : List Review)
deriving DecidableEq, Repr

/-- Go `encoding/json` marshalling of a `[]Review` value. -/
def encodeReviews (s : Option (List Review)) : ListBody :=
  match s with
  | none => ListBody.null
  | some l => ListBody.arr l

/-- The in-process state guarded by the global mutex: the shared database
handle and the `idCounter` global. -/
structure AppState where
  db : DB
  idCounter : Int
deriving DecidableEq, Repr

/-- Process startup on a given database file: keep the stored data, seed
`idCounter` via `loadIDCounter`. -/
def restart (db : DB) : AppState :=
  { db := db, idCounter := loadIDCounter db }

/-- A process started on a brand-new database file. -/
def startFresh : AppState := restart emptyDB

/-- Responses of `handlePostReview`. -/
inductive CreateRes where
  | badRequest (msg : String)
  | serverError (msg : String)
  | ok (id : Int)
deriving DecidableEq, Repr

/-- HTTP status attached to each create response. -/
def createStatus : CreateRes → Nat
  | .badRequest _ => 400
  | .serverError _ => 500
  | .ok _ => 200

/-- `handlePostReview`: decode the body (`none` = undecodable JSON),
validate the rating, then under the mutex increment `idCounter`, stamp the
review with it and insert. A failed insert keeps the incremented counter. -/
def handlePostReview (st : AppState) (body : Option Review)
    (insertFails : Bool) : AppState × CreateRes :=
  match body with
  | none => (st, CreateRes.badRequest "Invalid request payload")
  | some r =>
    if r.rating < 1 ∨ r.rating > 5 then
      (st, CreateRes.badRequest "Invalid rating value. Must be between 1 and 5.")
    else
      let c := st.idCounter + 1
      if insertFails then
        ({ st with idCounter := c }, CreateRes.serverError "Failed to save review")
      else
        ({ db := saveReview st.db { r with id := c }, idCounter := c },
          CreateRes.ok c)

/-- `handleGetReviews`: read all rows under the mutex and encode the slice;
the state is unchanged and the status is 200 on the normal path. -/
def handleGetReviews (st : AppState) : AppState × (Nat × ListBody) :=
  (st, (200, encodeReviews (loadReviews st.db)))

/-- Responses of `deleteReviewHandler`. -/
inductive DeleteRes where
  | badRequest (msg : String)
  | serverError (msg : String)
  | ok
deriving DecidableEq, Repr

/-- HTTP status attached to each delete response. -/
def deleteStatus : DeleteRes → Nat
  | .badRequest _ => 400
  | .serverError _ => 500
  | .ok => 200

/-- `deleteReviewHandler`: decode `{id}` (`none` = undecodable JSON), then
under the mutex run `deleteReview`; any store error becomes a 500 with the
wrapped message, success a 200 `{success:true}`. -/
def deleteReviewHandler (st : AppState) (body : Option Int)
    (backendErr : Option String) : AppState × DeleteRes :=
  match body with
  | none => (st, DeleteRes.badRequest "Invalid request payload")
  | some id =>
    match deleteReview st.db id backendErr with
    | Except.error e =>
      (st, DeleteRes.serverError ("Failed to delete review: " ++ e.message))
    | Except.ok db2 => ({ st with db := db2 }, DeleteRes.ok)

/-- One serialized request against the process (the mutex admits one store
touching section at a time). -/
inductive Op where
  | create (body : Option Review) (insertFails : Bool)
  | list
  | delete (body : Option Int) (backendErr : Option String)
deriving DecidableEq, Repr

/-- The state after serving one request. -/
def step (st : AppState) : Op → AppState
  | Op.create body f => (handlePostReview st body f).1
  | Op.list => (handleGetReviews st).1
  | Op.delete body e => (deleteReviewHandler st body e).1

/-- The state after serving a sequence of requests. -/
def run (st : AppState) (ops : List Op) : AppState :=
  ops.foldl step st

/-- A run of create requests, collecting every response in order. -/
def runCreates (st : AppState) (reqs : List (Option Review × Bool)) :
    AppState × List CreateRes :=
  match reqs with
  | [] => (st, [])
  | (b, f) :: rest =>
    let p := handlePostReview st b f
    let q := runCreates p.1 rest
    (q.1, p.2 :: q.2)

/-- The ids returned by the successful creates of a run, in order. -/
def okIds (out : List CreateRes) : List Int :=
  out.filterMap fun res =>
    match res with
    | CreateRes.ok i => some i
    | _ => none

/-- A sample create payload (the id field of a decoded payload is ignored
by the handler, which overwrites it). -/
def annReview : Review := { id := 0, name := "Ann", review := "Great", rating := 5 }

/-- A second sample create payload. -/
def bobReview : Review := { id := 0, name := "Bob", review := "Bad", rating := 1 }

/-- A third sample create payload. -/
def catReview : Review := { id := 0, name := "Cat", review := "Okay", rating := 3 }

/-- The state reached by: fresh store, create two reviews (ids 1 and 2),
delete review 2, restart the process. The table holds row 1 only, the
engine sequence is still 2, and the reseeded counter is 1. -/
def divergedState : AppState :=
  restart (deleteReviewHandler
    (handlePostReview
      (handlePostReview startFresh (some annReview) false).1
      (some bobReview) false).1
    (some 2) none).1.db

/-! ### Helper lemmas about the store -/

/-- The fold computing the row maximum never drops below its seed. -/
lemma foldlMax_init_le (rows : List Review) (m : Int) :
    m ≤ rows.foldl (fun a ρ => max a ρ.id) m := by
  induction rows generalizing m with
  | nil => exact le_refl m
  | cons a l ih => exact le_trans (le_max_left m a.id) (ih (max m a.id))

/-- Every row's id is bounded by the fold computing the row maximum. -/
lemma id_le_foldlMax (rows : List Review) (m : Int) (ρ : Review)
    (h : ρ ∈ rows) : ρ.id ≤ rows.foldl (fun a x => max a x.id) m := by
  induction rows generalizing m with
  | nil => cases h
  | cons a l ih =>
    rcases List.mem_cons.mp h with h1 | h2
    · rw [h1]
      exact le_trans (le_max_right m a.id) (foldlMax_init_le l (max m a.id))
    · exact ih (max m a.id) h2

/-- Every row's id is at most `maxRowId`. -/
lemma id_le_maxRowId (rows : List Review) (ρ : Review) (h : ρ ∈ rows) :
    ρ.id ≤ maxRowId rows :=
  id_le_foldlMax rows 0 ρ h

/-- Accumulating rows into a non-nil slice appends them. -/
lemma foldl_goAppend_some (rows : List Review) (acc : List Review) :
    rows.foldl goAppend (some acc) = some (acc ++ rows) := by
  induction rows generalizing acc with
  | nil => simp
  | cons a l ih =>
    simp only [List.foldl_cons, goAppend, ih (acc ++ [a]), List.append_assoc,
      List.singleton_append]

/-- `loadReviews` yields the nil slice exactly on an empty table, and the
table's rows otherwise. -/
lemma loadReviews_eq (db : DB) :
    loadReviews db = if db.rows = [] then none else some db.rows := by
  rcases hr : db.rows with _ | ⟨a, l⟩
  · simp [loadReviews, hr]
  · simp [loadReviews, hr, goAppend, foldl_goAppend_some]

/-- Zero affected rows means no row carries the id. -/
lemma rowsAffected_eq_zero (rows : List Review) (id : Int) :
    rowsAffected rows id = 0 ↔ ∀ ρ ∈ rows, ρ.id ≠ id := by
  simp [rowsAffected, List.countP_eq_zero]

/-- Membership after the DELETE filter. -/
lemma mem_removeId (rows : List Review) (id : Int) (ρ : Review) :
    ρ ∈ removeId rows id ↔ ρ ∈ rows ∧ ρ.id ≠ id := by
  simp [removeId, List.mem_filter]

/-! ### Helper lemmas about the create handler -/

/-- An unparseable create body is rejected without touching any state. -/
lemma post_none (st : AppState) (f : Bool) :
    handlePostReview st none f = (st, CreateRes.badRequest "Invalid request payload") :=
  rfl

/-- An out-of-range rating is rejected without touching any state. -/
lemma post_invalid (st : AppState) (r : Review) (f : Bool)
    (h : r.rating < 1 ∨ r.rating > 5) :
    handlePostReview st (some r) f =
      (st, CreateRes.badRequest "Invalid rating value. Must be between 1 and 5.") := by
  simp [handlePostReview, h]

/-- A valid create with a healthy store increments the counter, inserts and
returns the counter value. -/
lemma post_valid_ok (st : AppState) (r : Review)
    (h1 : 1 ≤ r.rating) (h2 : r.rating ≤ 5) :
    handlePostReview st (some r) false =
      ({ db := saveReview st.db { r with id := st.idCounter + 1 },
         idCounter := st.idCounter + 1 },
        CreateRes.ok (st.idCounter + 1)) := by
  have hcond : ¬(r.rating < 1 ∨ r.rating > 5) := by omega
  simp [handlePostReview, hcond]

/-- A valid create whose insert fails still increments the counter and
reports a server error. -/
lemma post_valid_fail (st : AppState) (r : Review)
    (h1 : 1 ≤ r.rating) (h2 : r.rating ≤ 5) :
    handlePostReview st (some r) true =
      ({ st with idCounter := st.idCounter + 1 },
        CreateRes.serverError "Failed to save review") := by
  have hcond : ¬(r.rating < 1 ∨ r.rating > 5) := by omega
  simp [handlePostReview, hcond]

/-- Any create leaves the counter unchanged or advances it by one. -/
lemma post_counter_cases (st : AppState) (b : Option Review) (f : Bool) :
    (handlePostReview st b f).1.idCounter = st.idCounter ∨
      (handlePostReview st b f).1.idCounter = st.idCounter + 1 := by
  cases b with
  | none => exact Or.inl rfl
  | some r =>
    by_cases h : r.rating < 1 ∨ r.rating > 5
    · exact Or.inl (by simp [handlePostReview, h])
    · cases f
      · exact Or.inr (by simp [handlePostReview, h])
      · exact Or.inr (by simp [handlePostReview, h])

/-- A create that answers `ok i` returned exactly the incremented counter. -/
lemma post_ok_eq (st : AppState) (b : Option Review) (f : Bool) (i : Int)
    (h : (handlePostReview st b f).2 = CreateRes.ok i) :
    i = st.idCounter + 1 ∧
      (handlePostReview st b f).1.idCounter = st.idCounter + 1 := by
  cases b with
  | none => simp [handlePostReview] at h
  | some r =>
    by_cases hr : r.rating < 1 ∨ r.rating > 5
    · simp [handlePostReview, hr] at h
    · cases f
      · refine ⟨?_, by simp [handlePostReview, hr]⟩
        have := (by simp [handlePostReview, hr] :
          (handlePostReview st (some r) false).2 = CreateRes.ok (st.idCounter + 1))
        rw [this] at h
        cases h
        rfl
      · simp [handlePostReview, hr] at h

/-! ### Helper lemmas about the delete handler -/

/-- Deleting an id that matches no row surfaces the not-found error as a
wrapped 500 message, leaving the state untouched. -/
lemma delete_handler_notFound (st : AppState) (id : Int)
    (h : rowsAffected st.db.rows id = 0) :
    deleteReviewHandler st (some id) none =
      (st, DeleteRes.serverError
        ("Failed to delete review: no review found with id " ++ toString id)) := by
  have hs : "Failed to delete review: " ++ "no review found with id " =
      "Failed to delete review: no review found with id " := rfl
  simp only [deleteReviewHandler, deleteReview, h, if_pos, DBErr.message]
  rw [← String.append_assoc, hs]

/-- Deleting an id that matches at least one row filters the table and
answers success. -/
lemma delete_handler_found (st : AppState) (id : Int)
    (h : rowsAffected st.db.rows id ≠ 0) :
    deleteReviewHandler st (some id) none =
      ({ st with db := { st.db with rows := removeId st.db.rows id } },
        DeleteRes.ok) := by
  simp [deleteReviewHandler, deleteReview, h]

/-! ### Preservation of stored rows across requests -/

/-- A create request never removes an existing row. -/
lemma mem_post (st : AppState) (b : Option Review) (f : Bool) (ρ : Review)
    (h : ρ ∈ st.db.rows) : ρ ∈ (handlePostReview st b f).1.db.rows := by
  cases b with
  | none => exact h
  | some r =>
    by_cases hr : r.rating < 1 ∨ r.rating > 5
    · simpa [handlePostReview, hr] using h
    · cases f
      · simp [handlePostReview, hr, saveReview]
        exact Or.inl h
      · simpa [handlePostReview, hr] using h

/-- A delete request that does not target a row's id keeps that row. -/
lemma mem_delete_handler (st : AppState) (body : Option Int)
    (e : Option String) (ρ : Review) (h : ρ ∈ st.db.rows)
    (hne : ∀ j, body = some j → ρ.id ≠ j) :
    ρ ∈ (deleteReviewHandler st body e).1.db.rows := by
  cases body with
  | none => exact h
  | some j =>
    cases e with
    | some m => simpa [deleteReviewHandler, deleteReview] using h
    | none =>
      by_cases hz : rowsAffected st.db.rows j = 0
      · simpa [delete_handler_notFound st j hz] using h
      · rw [delete_handler_found st j hz]
        exact (mem_removeId st.db.rows j ρ).mpr ⟨h, hne j rfl⟩

/-- A stored row survives any request sequence that never issues a delete
for its id. -/
lemma mem_run (ops : List Op) (st : AppState) (ρ : Review)
    (h : ρ ∈ st.db.rows) (hnd : ∀ e, Op.delete (some ρ.id) e ∉ ops) :
    ρ ∈ (run st ops).db.rows := by
  induction ops generalizing st with
  | nil => exact h
  | cons op rest ih =>
    have hstep : ρ ∈ (step st op).db.rows := by
      cases op with
      | create b f => exact mem_post st b f ρ h
      | list => exact h
      | delete body e =>
        refine mem_delete_handler st body e ρ h ?_
        intro j hj hij
        exact hnd e (by rw [hj, hij]; exact List.mem_cons_self _ _)
    refine ih (step st op) hstep ?_
    intro e he
    exact hnd e (List.mem_cons_of_mem op he)

/-! ### Monotonicity of assigned ids over a run of creates -/

/-- In any run of create requests, the returned ids are strictly increasing
in request order and all exceed the starting counter. -/
lemma runCreates_ids (reqs : List (Option Review × Bool)) (st : AppState) :
    (okIds (runCreates st reqs).2).Pairwise (· < ·) ∧
      ∀ i ∈ okIds (runCreates st reqs).2, st.idCounter < i := by
  induction reqs generalizing st with
  | nil => exact ⟨List.Pairwise.nil, by simp [runCreates, okIds]⟩
  | cons req rest ih =>
    obtain ⟨b, f⟩ := req
    have hrun : runCreates st ((b, f) :: rest) =
        ((runCreates (handlePostReview st b f).1 rest).1,
          (handlePostReview st b f).2 ::
            (runCreates (handlePostReview st b f).1 rest).2) := rfl
    rw [hrun]
    have ihp := ih (handlePostReview st b f).1
    cases hres : (handlePostReview st b f).2 with
    | ok i =>
      obtain ⟨hi, hc⟩ := post_ok_eq st b f i hres
      have hids : okIds (CreateRes.ok i ::
          (runCreates (handlePostReview st b f).1 rest).2) =
          i :: okIds (runCreates (handlePostReview st b f).1 rest).2 := by
        simp [okIds]
      constructor
      · rw [hids]
        refine List.pairwise_cons.mpr ⟨?_, ihp.1⟩
        intro j hj
        have := ihp.2 j hj
        omega
      · rw [hids]
        intro k hk
        rcases List.mem_cons.mp hk with hk1 | hk2
        · omega
        · have := ihp.2 k hk2
          omega
    | badRequest m =>
      have hids : okIds (CreateRes.badRequest m ::
          (runCreates (handlePostReview st b f).1 rest).2) =
          okIds (runCreates (handlePostReview st b f).1 rest).2 := by
        simp [okIds]
      rw [hids]
      refine ⟨ihp.1, ?_⟩
      intro k hk
      have hk2 := ihp.2 k hk
      rcases post_counter_cases st b f with hcc | hcc <;> omega
    | serverError m =>
      have hids : okIds (CreateRes.serverError m ::
          (runCreates (handlePostReview st b f).1 rest).2) =
          okIds (runCreates (handlePostReview st b f).1 rest).2 := by
        simp [okIds]
      rw [hids]
      refine ⟨ihp.1, ?_⟩
      intro k hk
      have hk2 := ihp.2 k hk
      rcases post_counter_cases st b f with hcc | hcc <;> omega

/-! ### Claim theorems -/

/-- C3, counterexample: on an empty store the list handler answers 200 with
JSON `null` — the encoding of the nil slice — which is not the empty array
the claim requires. -/
theorem c3_counterexample :
    (handleGetReviews startFresh).2 = (200, ListBody.null) ∧
    ListBody.null ≠ ListBody.arr [] := by decide

/-- C3, amended: the list handler leaves the state unchanged and answers
HTTP 200; its body is JSON `null` when the table is empty (the nil slice
marshalled by `encoding/json`) and the array of all rows otherwise. -/
theorem c3_list_empty_gives_null (st : AppState) :
    (handleGetReviews st).1 = st ∧ (handleGetReviews st).2.1 = 200 ∧
    (handleGetReviews st).2.2 =
      (if st.db.rows = [] then ListBody.null else ListBody.arr st.db.rows) := by
  refine ⟨rfl, rfl, ?_⟩
  show encodeReviews (loadReviews st.db) = _
  rw [loadReviews_eq]
  by_cases h : st.db.rows = []
  · rw [if_pos h, if_pos h]; rfl
  · rw [if_neg h, if_neg h]; rfl

/-- C7: when zero rows match the requested id (and the backend itself does
not fail), `deleteReview` produces the dedicated not-found error — a
constructor distinct from every generic backend error — and the handler
surfaces it as HTTP 500 with a message naming the missing id. -/
theorem c7_delete_missing_id :
    ∀ (st : AppState) (id : Int), rowsAffected st.db.rows id = 0 →
    deleteReview st.db id none = Except.error (DBErr.notFound id) ∧
    (∀ m : String, DBErr.notFound id ≠ DBErr.backend m) ∧
    (deleteReviewHandler st (some id) none).2 =
      DeleteRes.serverError
        ("Failed to delete review: no review found with id " ++ toString id) ∧
    deleteStatus (deleteReviewHandler st (some id) none).2 = 500 := by
  intro st id h
  refine ⟨by simp [deleteReview, h], ?_, ?_, ?_⟩
  · intro m hm
    exact DBErr.noConfusion hm
  · rw [delete_handler_notFound st id h]
  · rw [delete_handler_notFound st id h]
    rfl

/-- C7 witness at a concrete state and id. -/
theorem c7_delete_missing_id_witness :
    rowsAffected startFresh.db.rows 7 = 0 ∧
    (deleteReviewHandler startFresh (some 7) none).2 =
      DeleteRes.serverError
        ("Failed to delete review: no review found with id " ++ toString (7 : Int)) ∧
    deleteStatus (deleteReviewHandler startFresh (some 7) none).2 = 500 := by
  have h := c7_delete_missing_id startFresh 7 (by decide)
  exact ⟨by decide, h.2.2.1, h.2.2.2⟩

/-- C8: a create whose insert fails after validation answers HTTP 500, yet
the counter keeps the incremented value (and the store is unchanged); the
next successful create returns the strictly larger id `counter + 2`, so the
value `counter + 1` is permanently skipped. -/
theorem c8_failed_insert_consumes_id :
    ∀ (st : AppState) (r r2 : Review),
    1 ≤ r.rating → r.rating ≤ 5 → 1 ≤ r2.rating → r2.rating ≤ 5 →
    handlePostReview st (some r) true =
      ({ st with idCounter := st.idCounter + 1 },
        CreateRes.serverError "Failed to save review") ∧
    createStatus (handlePostReview st (some r) true).2 = 500 ∧
    (handlePostReview (handlePostReview st (some r) true).1 (some r2) false).2 =
      CreateRes.ok (st.idCounter + 2) ∧
    st.idCounter + 1 < st.idCounter + 2 := by
  intro st r r2 h1 h2 h3 h4
  have hfail := post_valid_fail st r h1 h2
  have hsum : st.idCounter + 1 + 1 = st.idCounter + 2 := by omega
  refine ⟨hfail, by rw [hfail]; rfl, ?_, by omega⟩
  rw [hfail, post_valid_ok _ r2 h3 h4]
  show CreateRes.ok (st.idCounter + 1 + 1) = CreateRes.ok (st.idCounter + 2)
  rw [hsum]

/-- C8 witness at a concrete state and payloads. -/
theorem c8_failed_insert_consumes_id_witness :
    handlePostReview startFresh (some annReview) true =
      ({ startFresh with idCounter := startFresh.idCounter + 1 },
        CreateRes.serverError "Failed to save review") ∧
    createStatus (handlePostReview startFresh (some annReview) true).2 = 500 ∧
    (handlePostReview (handlePostReview startFresh (some annReview) true).1
      (some bobReview) false).2 = CreateRes.ok (startFresh.idCounter + 2) ∧
    startFresh.idCounter + 1 < startFresh.idCounter + 2 :=
  c8_failed_insert_consumes_id startFresh annReview bobReview
    (by decide) (by decide) (by decide) (by decide)

/-- C10: a create rejected for an unparseable body or an out-of-range
rating leaves the whole state — in particular `idCounter` — unchanged. -/
theorem c10_rejected_create_keeps_counter :
    ∀ (st : AppState) (f : Bool) (r : Review),
    (handlePostReview st none f).1 = st ∧
    ((r.rating < 1 ∨ r.rating > 5) → (handlePostReview st (some r) f).1 = st) := by
  intro st f r
  exact ⟨rfl, fun h => by rw [post_invalid st r f h]⟩

/-- C10 witness at a concrete state and a rating-6 payload. -/
theorem c10_rejected_create_keeps_counter_witness :
    (handlePostReview startFresh none true).1 = startFresh ∧
    (handlePostReview startFresh
      (some { id := 0, name := "Sue", review := "Six", rating := 6 }) true).1 =
      startFresh := by
  have h := c10_rejected_create_keeps_counter startFresh true
    { id := 0, name := "Sue", review := "Six", rating := 6 }
  exact ⟨h.1, h.2 (by decide)⟩

/-- C1, counterexample: starting from the reachable state `divergedState`
(create, create, delete id 2, restart), a successful create returns id 2,
but the table then holds rows with ids 1 and 3 — the engine, not the
application, assigned the stored id, and it differs from the returned one. -/
theorem c1_counterexample :
    (handlePostReview divergedState (some catReview) false).2 = CreateRes.ok 2 ∧
    (handlePostReview divergedState (some catReview) false).1.db.rows.map
      (fun ρ => ρ.id) = [1, 3] := by decide

/-- C1, amended: the insert sends only name, review and rating — the id
passed to `saveReview` is ignored — and the stored id equals the returned
id exactly on states whose engine sequence agrees with the allocator
counter and bounds the table maximum. -/
theorem c1_insert_sends_no_id :
    (∀ (db : DB) (r : Review) (i : Int),
      saveReview db { r with id := i } = saveReview db r) ∧
    (∀ (st : AppState) (r : Review), 1 ≤ r.rating → r.rating ≤ 5 →
      maxRowId st.db.rows ≤ st.db.seq → st.db.seq = st.idCounter →
      (handlePostReview st (some r) false).2 = CreateRes.ok (st.idCounter + 1) ∧
      (handlePostReview st (some r) false).1.db.rows =
        st.db.rows ++ [{ r with id := st.idCounter + 1 }]) := by
  constructor
  · intro db r i
    rfl
  · intro st r h1 h2 hle hseq
    have hmax : max st.db.seq (maxRowId st.db.rows) = st.idCounter := by
      rw [max_eq_left hle, hseq]
    rw [post_valid_ok st r h1 h2]
    refine ⟨rfl, ?_⟩
    show (saveReview st.db { r with id := st.idCounter + 1 }).rows = _
    simp only [saveReview, hmax]

/-- C1 witness: on a fresh store the amended statement holds concretely. -/
theorem c1_insert_sends_no_id_witness :
    (handlePostReview startFresh (some annReview) false).2 =
      CreateRes.ok (startFresh.idCounter + 1) ∧
    (handlePostReview startFresh (some annReview) false).1.db.rows =
      startFresh.db.rows ++ [{ annReview with id := startFresh.idCounter + 1 }] :=
  c1_insert_sends_no_id.2 startFresh annReview
    (by decide) (by decide) (by decide) (by decide)

/-- C2, counterexample: from `divergedState` a create succeeds returning
id 2, yet deleting id 2 right away answers HTTP 500 with the not-found
message — the created review is stored under engine id 3, not 2. -/
theorem c2_counterexample :
    (handlePostReview divergedState (some catReview) false).2 = CreateRes.ok 2 ∧
    (deleteReviewHandler (handlePostReview divergedState (some catReview) false).1
      (some 2) none).2 =
      DeleteRes.serverError "Failed to delete review: no review found with id 2" ∧
    deleteStatus (deleteReviewHandler
      (handlePostReview divergedState (some catReview) false).1 (some 2) none).2 =
      500 := by decide

/-- C2, amended: on states whose engine sequence agrees with the allocator
counter and bounds the table maximum, deleting the id returned by a create
succeeds and restores the previous table (the new review is gone from
every later list); deleting an id matching no stored row answers 500. -/
theorem c2_delete_created_id :
    ∀ (st : AppState) (r : Review), 1 ≤ r.rating → r.rating ≤ 5 →
    maxRowId st.db.rows ≤ st.db.seq → st.db.seq = st.idCounter →
    (handlePostReview st (some r) false).2 = CreateRes.ok (st.idCounter + 1) ∧
    (deleteReviewHandler (handlePostReview st (some r) false).1
      (some (st.idCounter + 1)) none).2 = DeleteRes.ok ∧
    (deleteReviewHandler (handlePostReview st (some r) false).1
      (some (st.idCounter + 1)) none).1.db.rows = st.db.rows ∧
    (∀ ρ ∈ (deleteReviewHandler (handlePostReview st (some r) false).1
      (some (st.idCounter + 1)) none).1.db.rows, ρ.id ≠ st.idCounter + 1) ∧
    (∀ (st2 : AppState) (j : Int), rowsAffected st2.db.rows j = 0 →
      deleteStatus (deleteReviewHandler st2 (some j) none).2 = 500) := by
  intro st r h1 h2 hle hseq
  have hmax : max st.db.seq (maxRowId st.db.rows) = st.idCounter := by
    rw [max_eq_left hle, hseq]
  have hrows : (handlePostReview st (some r) false).1.db.rows =
      st.db.rows ++ [{ r with id := st.idCounter + 1 }] := by
    rw [post_valid_ok st r h1 h2]
    show (saveReview st.db { r with id := st.idCounter + 1 }).rows = _
    simp only [saveReview, hmax]
  have hidsmall : ∀ ρ ∈ st.db.rows, ρ.id ≠ st.idCounter + 1 := by
    intro ρ hρ
    have hb := id_le_maxRowId st.db.rows ρ hρ
    omega
  have haff : rowsAffected (handlePostReview st (some r) false).1.db.rows
      (st.idCounter + 1) ≠ 0 := by
    rw [hrows]
    intro h0
    have hall := (rowsAffected_eq_zero _ _).mp h0
      { r with id := st.idCounter + 1 } (by simp)
    simp at hall
  have hdel := delete_handler_found (handlePostReview st (some r) false).1
    (st.idCounter + 1) haff
  have hremove : removeId (handlePostReview st (some r) false).1.db.rows
      (st.idCounter + 1) = st.db.rows := by
    rw [hrows]
    show List.filter _ _ = _
    rw [List.filter_append]
    have hself : st.db.rows.filter
        (fun ρ => ρ.id != st.idCounter + 1) = st.db.rows :=
      List.filter_eq_self.mpr fun ρ hρ => by
        simpa [bne_iff_ne] using hidsmall ρ hρ
    have hnew : List.filter (fun ρ => ρ.id != st.idCounter + 1)
        [{ r with id := st.idCounter + 1 }] = [] := by simp
    rw [hself, hnew, List.append_nil]
  refine ⟨by rw [post_valid_ok st r h1 h2], ?_, ?_, ?_, ?_⟩
  · rw [hdel]
  · rw [hdel]
    show removeId (handlePostReview st (some r) false).1.db.rows
      (st.idCounter + 1) = st.db.rows
    exact hremove
  · rw [hdel]
    intro ρ hρ
    exact hidsmall ρ (hremove ▸ hρ)
  · intro st2 j hz
    rw [delete_handler_notFound st2 j hz]
    rfl

/-- C2 witness: on a fresh store, create then delete of the returned id. -/
theorem c2_delete_created_id_witness :
    (handlePostReview startFresh (some annReview) false).2 =
      CreateRes.ok (startFresh.idCounter + 1) ∧
    (deleteReviewHandler (handlePostReview startFresh (some annReview) false).1
      (some (startFresh.idCounter + 1)) none).2 = DeleteRes.ok ∧
    (deleteReviewHandler (handlePostReview startFresh (some annReview) false).1
      (some (startFresh.idCounter + 1)) none).1.db.rows = startFresh.db.rows := by
  have h := c2_delete_created_id startFresh annReview
    (by decide) (by decide) (by decide) (by decide)
  exact ⟨h.1, h.2.1, h.2.2.1⟩

/-- C4, counterexample: before the restart baked into `divergedState` the
creates returned ids 1 and 2; after the restart the counter was reseeded to
1 (the max-id row having been deleted) and the next create returns id 2
again — not strictly greater than the highest id seen before restart. -/
theorem c4_counterexample :
    (handlePostReview startFresh (some annReview) false).2 = CreateRes.ok 1 ∧
    (handlePostReview (handlePostReview startFresh (some annReview) false).1
      (some bobReview) false).2 = CreateRes.ok 2 ∧
    divergedState.idCounter = 1 ∧
    (handlePostReview divergedState (some catReview) false).2 =
      CreateRes.ok 2 := by decide

/-- C4, amended: a restart preserves every stored row and reseeds the
counter to the store's current maximum id (zero when empty); the next
create returns an id strictly greater than every id currently stored —
strictly above the pre-restart maximum only when the max-id row survived. -/
theorem c4_restart_reseed :
    ∀ (db : DB) (r : Review), 1 ≤ r.rating → r.rating ≤ 5 →
    (restart db).db = db ∧
    (restart db).idCounter = maxRowId db.rows ∧
    (db.rows = [] → (restart db).idCounter = 0) ∧
    (handlePostReview (restart db) (some r) false).2 =
      CreateRes.ok (maxRowId db.rows + 1) ∧
    (∀ ρ ∈ db.rows, ρ.id < maxRowId db.rows + 1) := by
  intro db r h1 h2
  have hc : (restart db).idCounter = maxRowId db.rows := by
    show loadIDCounter db = maxRowId db.rows
    rcases hr : db.rows with _ | ⟨a, l⟩
    · simp [loadIDCounter, maxID, maxRowId, hr]
    · simp [loadIDCounter, maxID, hr]
  refine ⟨rfl, hc, ?_, ?_, ?_⟩
  · intro h
    show loadIDCounter db = 0
    simp [loadIDCounter, maxID, h]
  · rw [post_valid_ok (restart db) r h1 h2, hc]
  · intro ρ hρ
    have hb := id_le_maxRowId db.rows ρ hρ
    omega

/-- C4 witness at the concrete diverged store. -/
theorem c4_restart_reseed_witness :
    (restart divergedState.db).db = divergedState.db ∧
    (restart divergedState.db).idCounter = maxRowId divergedState.db.rows ∧
    (handlePostReview (restart divergedState.db) (some catReview) false).2 =
      CreateRes.ok (maxRowId divergedState.db.rows + 1) := by
  have h := c4_restart_reseed divergedState.db catReview (by decide) (by decide)
  exact ⟨h.1, h.2.1, h.2.2.2.1⟩

/-- C5: over any run of create requests in one process lifetime, the ids
returned by the successful creates are pairwise strictly increasing in
request order, hence pairwise distinct. -/
theorem c5_ids_strictly_increasing :
    ∀ (st : AppState) (reqs : List (Option Review × Bool)),
    (okIds (runCreates st reqs).2).Pairwise (· < ·) ∧
    (okIds (runCreates st reqs).2).Nodup := by
  intro st reqs
  have h := runCreates_ids reqs st
  exact ⟨h.1, List.Pairwise.imp (fun hab => ne_of_lt hab) h.1⟩

/-- C6: an unparseable create body or an out-of-range rating yields 400
with the state (hence the store) untouched; a rating within `[1,5]` passes
validation, answers 200 and appends exactly one row carrying the submitted
name, review and rating. -/
theorem c6_create_validation :
    ∀ (st : AppState) (f : Bool) (rb rg : Review),
    ((handlePostReview st none f).1 = st ∧
      createStatus (handlePostReview st none f).2 = 400) ∧
    ((rb.rating < 1 ∨ rb.rating > 5) →
      (handlePostReview st (some rb) f).1 = st ∧
      createStatus (handlePostReview st (some rb) f).2 = 400) ∧
    (1 ≤ rg.rating → rg.rating ≤ 5 →
      createStatus (handlePostReview st (some rg) false).2 = 200 ∧
      ∃ ρ, (handlePostReview st (some rg) false).1.db.rows =
        st.db.rows ++ [ρ] ∧
        ρ.name = rg.name ∧ ρ.review = rg.review ∧ ρ.rating = rg.rating) := by
  intro st f rb rg
  refine ⟨⟨rfl, rfl⟩, ?_, ?_⟩
  · intro h
    rw [post_invalid st rb f h]
    exact ⟨rfl, rfl⟩
  · intro h1 h2
    rw [post_valid_ok st rg h1 h2]
    exact ⟨rfl,
      ⟨{ rg with id := max st.db.seq (maxRowId st.db.rows) + 1 },
        rfl, rfl, rfl, rfl⟩⟩

/-- C6 witness: boundary payloads on a fresh store. -/
theorem c6_create_validation_witness :
    ((handlePostReview startFresh none false).1 = startFresh ∧
      createStatus (handlePostReview startFresh none false).2 = 400) ∧
    ((handlePostReview startFresh
        (some { id := 0, name := "Zed", review := "Zero", rating := 0 }) false).1 =
        startFresh ∧
      createStatus (handlePostReview startFresh
        (some { id := 0, name := "Zed", review := "Zero", rating := 0 }) false).2 =
        400) ∧
    (createStatus (handlePostReview startFresh (some annReview) false).2 = 200 ∧
      ∃ ρ, (handlePostReview startFresh (some annReview) false).1.db.rows =
        startFresh.db.rows ++ [ρ] ∧
        ρ.name = annReview.name ∧ ρ.review = annReview.review ∧
        ρ.rating = annReview.rating) := by
  have h := c6_create_validation startFresh false
    { id := 0, name := "Zed", review := "Zero", rating := 0 } annReview
  exact ⟨h.1, h.2.1 (by decide), h.2.2 (by decide) (by decide)⟩

/-- C9: a successful create appends one row carrying the submitted name,
review and rating unchanged, and any later request sequence that never
issues a delete for that row's id leaves the row in every list result. -/
theorem c9_round_trip :
    ∀ (st : AppState) (r : Review), 1 ≤ r.rating → r.rating ≤ 5 →
    ∃ ρ : Review,
      (handlePostReview st (some r) false).1.db.rows = st.db.rows ++ [ρ] ∧
      ρ.name = r.name ∧ ρ.review = r.review ∧ ρ.rating = r.rating ∧
      ∀ ops : List Op, (∀ e, Op.delete (some ρ.id) e ∉ ops) →
        ∃ l, loadReviews
          (run (handlePostReview st (some r) false).1 ops).db = some l ∧
          ρ ∈ l := by
  intro st r h1 h2
  refine ⟨{ r with id := max st.db.seq (maxRowId st.db.rows) + 1 }, ?_,
    rfl, rfl, rfl, ?_⟩
  · rw [post_valid_ok st r h1 h2]
    show (saveReview st.db { r with id := st.idCounter + 1 }).rows = _
    simp only [saveReview]
  · intro ops hnd
    have hrows : (handlePostReview st (some r) false).1.db.rows =
        st.db.rows ++
          [{ r with id := max st.db.seq (maxRowId st.db.rows) + 1 }] := by
      rw [post_valid_ok st r h1 h2]
      show (saveReview st.db { r with id := st.idCounter + 1 }).rows = _
      simp only [saveReview]
    have hmem : { r with id := max st.db.seq (maxRowId st.db.rows) + 1 } ∈
        (handlePostReview st (some r) false).1.db.rows := by
      rw [hrows]
      simp
    have hrun := mem_run ops (handlePostReview st (some r) false).1 _ hmem hnd
    refine ⟨(run (handlePostReview st (some r) false).1 ops).db.rows, ?_, hrun⟩
    rw [loadReviews_eq, if_neg (List.ne_nil_of_mem hrun)]

/-- C9 witness at a fresh store and a concrete payload. -/
theorem c9_round_trip_witness :
    ∃ ρ : Review,
      (handlePostReview startFresh (some annReview) false).1.db.rows =
        startFresh.db.rows ++ [ρ] ∧
      ρ.name = annReview.name ∧ ρ.review = annReview.review ∧
      ρ.rating = annReview.rating ∧
      ∀ ops : List Op, (∀ e, Op.delete (some ρ.id) e ∉ ops) →
        ∃ l, loadReviews
          (run (handlePostReview startFresh (some annReview) false).1 ops).db =
            some l ∧
          ρ ∈ l :=
  c9_round_trip startFresh annReview (by decide) (by decide)
